import Mathlib

/-!
Verification of the Deep Query Execution Engine and its UI request builders.

The repository ships the TypeScript clients (`src/web/src/components/DeepQuery.tsx`,
the `AdvancedTools` form in `src/frontend/src/components/Header.tsx`, and the API
type declarations in the unnamed api modules).  The backend engine itself (the
Django `mcp` deep-query endpoint) is not part of the snapshot, so the engine —
Safety Validator, Chain Executor and Result Aggregator — is modelled from the
spec (§3, §4.1, §4.2, §4.4), while the request builders are translated directly
from the TSX sources.

Text is modelled as `List Char` so that every definition evaluates inside the
kernel.
-/

namespace DeepQuerySpec

/-- Character lists stand in for JavaScript / Python strings. -/
abbrev Str := List Char

/-- Whitespace characters recognised by the trim operations. -/
def wsChar (c : Char) : Bool :=
  decide (c = ' ') || decide (c = '\t') || decide (c = '\n') || decide (c = '\r')

/-- JavaScript `String.prototype.trim`: drop whitespace from both ends. -/
def trimChars (s : Str) : Str :=
  ((s.dropWhile wsChar).reverse.dropWhile wsChar).reverse

/-- JavaScript `String.prototype.split(',')`: n separators yield n+1 fields. -/
def splitComma : Str → List Str
  | [] => [[]]
  | c :: rest =>
    if c = ',' then [] :: splitComma rest
    else
      match splitComma rest with
      | [] => [[c]]
      | p :: ps => (c :: p) :: ps

/-- SQL word characters: letters, digits and underscore. -/
def wordChar (c : Char) : Bool := c.isAlphanum || decide (c = '_')

/-- Accumulating tokenizer: maximal runs of word characters become tokens. -/
def tokenizeGo : Str → Str → List Str
  | [], acc => if acc.isEmpty then [] else [acc.reverse]
  | c :: rest, acc =>
    if wordChar c then tokenizeGo rest (c :: acc)
    else if acc.isEmpty then tokenizeGo rest []
    else acc.reverse :: tokenizeGo rest []

/-- The standalone tokens of an SQL text. -/
def sqlTokens (s : Str) : List Str := tokenizeGo s []

/-- Case normalisation of a token. -/
def upperStr (s : Str) : Str := s.map Char.toUpper

/-- Modelled from the spec: the write-statement keywords banned by the
Safety Validator of the backend deep-query engine (§4.1); the server
implementation is not included in the repository snapshot. -/
def forbiddenKeywords : List Str :=
  [ "INSERT".data, "UPDATE".data, "DELETE".data, "DROP".data,
    "ALTER".data, "TRUNCATE".data, "CREATE".data ]

/-- Modelled from the spec: whether the SQL text contains one of the banned
keywords as a standalone token (§4.1). -/
def hasForbiddenToken (s : Str) : Bool :=
  (sqlTokens s).any (fun t => forbiddenKeywords.contains (upperStr t))

/-- Modelled from the spec: whether the SQL text contains a statement
separator followed by further non-whitespace content (§4.1). -/
def hasMultiStatement : Str → Bool
  | [] => false
  | c :: rest =>
    if c = ';' then rest.any (fun d => ! wsChar d) else hasMultiStatement rest

/-- An SQL text is unsafe when it has a banned token or a second statement. -/
def unsafeSql (s : Str) : Bool := hasForbiddenToken s || hasMultiStatement s

/-- Modelled from the spec: the leading keyword, case-normalised, must be a
read-only form (`SELECT`, or `WITH ... SELECT`) (§4.1). -/
def startsReadOnly (s : Str) : Bool :=
  match sqlTokens s with
  | [] => false
  | t :: _ => decide (upperStr t = "SELECT".data) || decide (upperStr t = "WITH".data)

/-- Outcome of the Safety Validator. -/
inductive ValidationOutcome
  | ok
  | rejected (reason : Str)
deriving DecidableEq

/-- The single rejection reason named by the spec. -/
def unsafeReason : Str := "UnsafeStatement".data

/-- Modelled from the spec: the Safety Validator of the backend deep-query
engine (§4.1), absent from the repository snapshot.  A statement with a banned
standalone token or a statement separator followed by content is rejected with
`UnsafeStatement`; otherwise it must begin with a read-only keyword. -/
def validate (sql : Str) : ValidationOutcome :=
  if unsafeSql sql then ValidationOutcome.rejected unsafeReason
  else if startsReadOnly sql then ValidationOutcome.ok
  else ValidationOutcome.rejected unsafeReason

/-- Operation descriptor: one unit of work of a deep-query chain
(`DeepQueryOperation` in the api modules). -/
inductive Operation
  | listTables
  | tableInfo (tables : List Str)
  | query (sql : Str)
deriving DecidableEq

/-- The tag of an operation, mirrored into its result. -/
inductive OpKind
  | listTables
  | tableInfo
  | query
deriving DecidableEq

/-- Tag of an operation descriptor. -/
def Operation.kind : Operation → OpKind
  | .listTables => .listTables
  | .tableInfo _ => .tableInfo
  | .query _ => .query

/-- Modelled from the spec: the success payload shapes of the three gateway
primitives (§3, §4.3). -/
inductive Payload
  | tableList (names : List Str) (count : Nat)
  | schemaText (text : Str)
  | rowSet (columns : List Str) (rowCount : Nat)
deriving DecidableEq

/-- Status of one operation result. -/
inductive Status
  | succeeded
  | failed
  | skipped
deriving DecidableEq

/-- Modelled from the spec: `OperationResult` (§3); serialized as
`DeepQueryResult` in the api modules. -/
structure OperationResult where
  index : Nat
  operationKind : OpKind
  status : Status
  payload : Option Payload
  errorMessage : Option Str
  executionTimeMs : Option Nat
deriving DecidableEq

/-- Modelled from the spec: the Database Session Gateway together with the
wall clock (§4.3): a response for the gateway call made at a given chain index,
and the elapsed milliseconds measured for the attempt at that index. -/
structure Env where
  gw : Nat → Operation → Except Str Payload
  time : Nat → Nat

/-- A `Succeeded` result row. -/
def succeededResult (i : Nat) (k : OpKind) (p : Payload) (t : Nat) : OperationResult :=
  ⟨i, k, Status.succeeded, some p, none, some t⟩

/-- A `Failed` result row. -/
def failedResult (i : Nat) (k : OpKind) (e : Str) (t : Nat) : OperationResult :=
  ⟨i, k, Status.failed, none, some e, some t⟩

/-- A `Skipped` result row: no payload, no error, no execution time. -/
def skippedResult (i : Nat) (op : Operation) : OperationResult :=
  ⟨i, op.kind, Status.skipped, none, none, none⟩

/-- Modelled from the spec: dispatching one operation to the gateway and
recording the outcome with its elapsed time (§4.2 steps c and d). -/
def gatewayStep (env : Env) (i : Nat) (op : Operation) : OperationResult :=
  match env.gw i op with
  | Except.ok p => succeededResult i op.kind p (env.time i)
  | Except.error e => failedResult i op.kind e (env.time i)

/-- Modelled from the spec: one attempted operation (§4.2 step b): a `query`
goes through the Safety Validator first and reaches the gateway only on
acceptance; the other kinds go straight to the gateway.  Returns the result
row, the gateway calls made, and the validator calls made. -/
def attempt (env : Env) (i : Nat) (op : Operation) :
    OperationResult × List (Nat × Operation) × List Nat :=
  match op with
  | Operation.listTables =>
    (gatewayStep env i Operation.listTables, [(i, Operation.listTables)], [])
  | Operation.tableInfo ts =>
    (gatewayStep env i (Operation.tableInfo ts), [(i, Operation.tableInfo ts)], [])
  | Operation.query sql =>
    match validate sql with
    | ValidationOutcome.rejected reason =>
      (failedResult i OpKind.query reason (env.time i), [], [i])
    | ValidationOutcome.ok =>
      (gatewayStep env i (Operation.query sql), [(i, Operation.query sql)], [i])

/-- The observable trace of a chain execution: the result rows plus the logs
of gateway calls, validator calls and timer starts, keyed by chain index. -/
structure ChainOutput where
  results : List OperationResult
  gwLog : List (Nat × Operation)
  valLog : List Nat
  timerLog : List Nat
deriving DecidableEq

/-- Modelled from the spec: the Chain Executor loop (§4.2).  `i` is the index
of the next operation and `cf` the `chainFailed` flag: when it is set the
operation is emitted as `Skipped` with no timer, gateway or validator
activity; otherwise the operation is attempted and a failure sets the flag. -/
def execOps (env : Env) : Nat → Bool → List Operation → ChainOutput
  | _, _, [] => ⟨[], [], [], []⟩
  | i, true, op :: rest =>
    let out := execOps env (i + 1) true rest
    ⟨skippedResult i op :: out.results, out.gwLog, out.valLog, out.timerLog⟩
  | i, false, op :: rest =>
    let a := attempt env i op
    let out := execOps env (i + 1) (decide (a.1.status = Status.failed)) rest
    ⟨a.1 :: out.results, a.2.1 ++ out.gwLog, a.2.2 ++ out.valLog, i :: out.timerLog⟩

/-- A whole chain execution, starting at index 0 with a clean flag. -/
def execChain (env : Env) (ops : List Operation) : ChainOutput :=
  execOps env 0 false ops

/-- Number of result rows carrying a given status. -/
def countStatus (s : Status) (rs : List OperationResult) : Nat :=
  (rs.filter (fun r => decide (r.status = s))).length

/-- Modelled from the spec: `ChainResult` (§3); serialized as
`DeepQueryResponse` in the api modules. -/
structure ChainResult where
  results : List OperationResult
  total_operations : Nat
  executed_operations : Nat
  successful_operations : Nat
  failed_operations : Nat
  total_execution_time_ms : Nat
  all_successful : Bool
deriving DecidableEq

/-- Modelled from the spec: the Result Aggregator (§3, §4.4): executed counts
`Succeeded` plus `Failed`, the total time sums `executionTimeMs` over the
non-skipped rows, and `allSuccessful` holds iff nothing failed and everything
was executed. -/
def aggregate (rs : List OperationResult) : ChainResult :=
  { results := rs
    total_operations := rs.length
    executed_operations := countStatus Status.succeeded rs + countStatus Status.failed rs
    successful_operations := countStatus Status.succeeded rs
    failed_operations := countStatus Status.failed rs
    total_execution_time_ms :=
      ((rs.filter (fun r => ! decide (r.status = Status.skipped))).map
        (fun r => r.executionTimeMs.getD 0)).sum
    all_successful :=
      decide (countStatus Status.failed rs = 0) &&
      decide (countStatus Status.succeeded rs + countStatus Status.failed rs = rs.length) }

/-- Modelled from the spec: the deep-query engine end to end (§4.2 step 3):
execute the chain and fold the rows into a `ChainResult`. -/
def runDeepQuery (env : Env) (ops : List Operation) : ChainResult :=
  aggregate (execChain env ops).results

/-- The form fields shared by the two deep-query UI forms
(`sqlQuery`/`tableNames` in `DeepQuery.tsx`, `deepSql`/`deepTables` in the
`AdvancedTools` form of `Header.tsx`). -/
structure FormState where
  sqlQuery : Str
  tableNames : Str
  includeListTables : Bool
  includeTableInfo : Bool

/-- What a submission handler does: report a client error, or send the built
operation list to the backend. -/
inductive ClientOutcome
  | reportError (msg : Str)
  | sendRequest (operations : List Operation)
deriving DecidableEq

/-- The table-name parsing shared by both forms: split on commas, trim each
field, drop the empty ones (`tableNames.split(',').map(t => t.trim()).filter(Boolean)`). -/
def parseTableNames (s : Str) : List Str :=
  ((splitComma s).map trimChars).filter (fun t => ! t.isEmpty)

/-- Model of `handleSubmit` in `src/web/src/components/DeepQuery.tsx`: reject an empty
(trimmed) SQL text; optionally push `list_tables`; with table info enabled,
reject an empty parsed table list, else push `table_info`; finally push the
`query` operation and send. -/
def handleSubmit (f : FormState) : ClientOutcome :=
  if (trimChars f.sqlQuery).isEmpty then
    ClientOutcome.reportError "Please enter a SQL query".data
  else if f.includeTableInfo then
    if (parseTableNames f.tableNames).isEmpty then
      ClientOutcome.reportError "Please specify at least one table name for Table Info operation".data
    else
      ClientOutcome.sendRequest
        ((if f.includeListTables then [Operation.listTables] else []) ++
          [Operation.tableInfo (parseTableNames f.tableNames),
           Operation.query (trimChars f.sqlQuery)])
  else
    ClientOutcome.sendRequest
      ((if f.includeListTables then [Operation.listTables] else []) ++
        [Operation.query (trimChars f.sqlQuery)])

/-- Model of `handleDeepQuery` in the `AdvancedTools` form of
`src/frontend/src/components/Header.tsx`: the same flow as `handleSubmit`
with Russian alert texts. -/
def handleDeepQuery (f : FormState) : ClientOutcome :=
  if (trimChars f.sqlQuery).isEmpty then
    ClientOutcome.reportError "Введите SQL для глубокого запроса".data
  else if f.includeTableInfo then
    if (parseTableNames f.tableNames).isEmpty then
      ClientOutcome.reportError "Укажите минимум одну таблицу для операции Table Info или выключите её".data
    else
      ClientOutcome.sendRequest
        ((if f.includeListTables then [Operation.listTables] else []) ++
          [Operation.tableInfo (parseTableNames f.tableNames),
           Operation.query (trimChars f.sqlQuery)])
  else
    ClientOutcome.sendRequest
      ((if f.includeListTables then [Operation.listTables] else []) ++
        [Operation.query (trimChars f.sqlQuery)])

/-! ### Basic facts about single attempts -/

lemma aggregate_results (rs : List OperationResult) : (aggregate rs).results = rs := rfl

lemma runDeepQuery_results (env : Env) (ops : List Operation) :
    (runDeepQuery env ops).results = (execChain env ops).results := rfl

lemma attempt_spec (env : Env) (i : Nat) (op : Operation) :
    (attempt env i op).1.index = i ∧
    (attempt env i op).1.operationKind = op.kind ∧
    (attempt env i op).1.status ≠ Status.skipped ∧
    (attempt env i op).1.executionTimeMs = some (env.time i) ∧
    ((attempt env i op).1.payload.isSome = true → (attempt env i op).1.status = Status.succeeded) ∧
    ((attempt env i op).1.errorMessage.isSome = true → (attempt env i op).1.status = Status.failed) := by
  cases op with
  | listTables =>
    cases h : env.gw i Operation.listTables <;>
      simp [attempt, gatewayStep, h, succeededResult, failedResult, Operation.kind]
  | tableInfo ts =>
    cases h : env.gw i (Operation.tableInfo ts) <;>
      simp [attempt, gatewayStep, h, succeededResult, failedResult, Operation.kind]
  | query sql =>
    cases hv : validate sql with
    | rejected reason => simp [attempt, hv, failedResult, Operation.kind]
    | ok =>
      cases h : env.gw i (Operation.query sql) <;>
        simp [attempt, hv, gatewayStep, h, succeededResult, failedResult, Operation.kind]

lemma attempt_gw_log (env : Env) (i : Nat) (op : Operation) :
    ∀ p ∈ (attempt env i op).2.1, p.1 = i := by
  cases op with
  | listTables => intro p hp; simp [attempt] at hp; simp [hp]
  | tableInfo ts => intro p hp; simp [attempt] at hp; simp [hp]
  | query sql =>
    cases hv : validate sql with
    | rejected reason => intro p hp; simp [attempt, hv] at hp
    | ok => intro p hp; simp [attempt, hv] at hp; simp [hp]

lemma attempt_val_log (env : Env) (i : Nat) (op : Operation) :
    ∀ n ∈ (attempt env i op).2.2, n = i := by
  cases op with
  | listTables => intro n hn; simp [attempt] at hn
  | tableInfo ts => intro n hn; simp [attempt] at hn
  | query sql =>
    cases hv : validate sql with
    | rejected reason => intro n hn; simpa [attempt, hv] using hn
    | ok => intro n hn; simpa [attempt, hv] using hn

/-! ### Structural facts about the executor -/

lemma execOps_length (env : Env) :
    ∀ (ops : List Operation) (i : Nat) (cf : Bool),
      (execOps env i cf ops).results.length = ops.length := by
  intro ops
  induction ops with
  | nil => intro i cf; cases cf <;> simp [execOps]
  | cons op rest ih => intro i cf; cases cf <;> simp [execOps, ih]

lemma execOps_true_all (env : Env) :
    ∀ (ops : List Operation) (i : Nat),
      (execOps env i true ops).gwLog = [] ∧
      (execOps env i true ops).valLog = [] ∧
      (execOps env i true ops).timerLog = [] ∧
      (∀ r ∈ (execOps env i true ops).results, r.status = Status.skipped) ∧
      (∀ (j : Nat) (r : OperationResult),
        (execOps env i true ops).results[j]? = some r → r.status = Status.skipped) := by
  intro ops
  induction ops with
  | nil => intro i; simp [execOps]
  | cons op rest ih =>
    intro i
    obtain ⟨h1, h2, h3, h4, h5⟩ := ih (i + 1)
    refine ⟨by simp [execOps, h1], by simp [execOps, h2], by simp [execOps, h3], ?_, ?_⟩
    · intro r hr
      simp [execOps] at hr
      rcases hr with hr | hr
      · rw [hr]; rfl
      · exact h4 r hr
    · intro j r hj
      cases j with
      | zero =>
        simp [execOps] at hj
        rw [← hj]; rfl
      | succ j' =>
        simp [execOps] at hj
        exact h5 j' r hj

lemma execOps_fail_tail (env : Env) :
    ∀ (ops : List Operation) (i : Nat) (cf : Bool) (j : Nat) (r : OperationResult),
      (execOps env i cf ops).results[j]? = some r → r.status = Status.failed →
      (∀ (k : Nat) (r' : OperationResult), j < k →
        (execOps env i cf ops).results[k]? = some r' → r'.status = Status.skipped) ∧
      (∀ n ∈ (execOps env i cf ops).timerLog, n ≤ i + j) ∧
      (∀ p ∈ (execOps env i cf ops).gwLog, p.1 ≤ i + j) ∧
      (∀ n ∈ (execOps env i cf ops).valLog, n ≤ i + j) := by
  intro ops
  induction ops with
  | nil => intro i cf j r hget; cases cf <;> simp [execOps] at hget
  | cons op rest ih =>
    intro i cf j r hget hfail
    cases cf with
    | true =>
      cases j with
      | zero =>
        simp [execOps] at hget
        rw [← hget] at hfail
        simp [skippedResult] at hfail
      | succ j' =>
        simp [execOps] at hget
        obtain ⟨hskip, htimer, hgw, hval⟩ := ih (i + 1) true j' r hget hfail
        refine ⟨?_, ?_, ?_, ?_⟩
        · intro k r' hk hget'
          cases k with
          | zero => omega
          | succ k' =>
            simp [execOps] at hget'
            exact hskip k' r' (by omega) hget'
        · intro n hn
          simp [execOps] at hn
          have := htimer n hn; omega
        · intro p hp
          simp [execOps] at hp
          have := hgw p hp; omega
        · intro n hn
          simp [execOps] at hn
          have := hval n hn; omega
    | false =>
      cases j with
      | zero =>
        have hhead : (attempt env i op).1 = r := by simpa [execOps] using hget
        have hflag : decide ((attempt env i op).1.status = Status.failed) = true := by
          rw [hhead, hfail]; simp
        obtain ⟨g1, g2, g3, g4, g5⟩ := execOps_true_all env rest (i + 1)
        refine ⟨?_, ?_, ?_, ?_⟩
        · intro k r' hk hget'
          cases k with
          | zero => omega
          | succ k' =>
            have hget'' :
                (execOps env (i + 1)
                  (decide ((attempt env i op).1.status = Status.failed)) rest).results[k']?
                  = some r' := by
              simpa [execOps] using hget'
            rw [hflag] at hget''
            exact g5 k' r' hget''
        · intro n hn
          simp [execOps, hflag, g3] at hn
          omega
        · intro p hp
          simp [execOps, hflag, g1] at hp
          have := attempt_gw_log env i op p hp
          omega
        · intro n hn
          simp [execOps, hflag, g2] at hn
          have := attempt_val_log env i op n hn
          omega
      | succ j' =>
        have hget' :
            (execOps env (i + 1)
              (decide ((attempt env i op).1.status = Status.failed)) rest).results[j']?
              = some r := by
          simpa [execOps] using hget
        obtain ⟨hskip, htimer, hgw, hval⟩ := ih (i + 1) _ j' r hget' hfail
        refine ⟨?_, ?_, ?_, ?_⟩
        · intro k r' hk hget''
          cases k with
          | zero => omega
          | succ k' =>
            have : (execOps env (i + 1)
                (decide ((attempt env i op).1.status = Status.failed)) rest).results[k']?
                = some r' := by
              simpa [execOps] using hget''
            exact hskip k' r' (by omega) this
        · intro n hn
          simp [execOps] at hn
          rcases hn with hn | hn
          · omega
          · have := htimer n hn; omega
        · intro p hp
          simp [execOps] at hp
          rcases hp with hp | hp
          · have := attempt_gw_log env i op p hp; omega
          · have := hgw p hp; omega
        · intro n hn
          simp [execOps] at hn
          rcases hn with hn | hn
          · have := attempt_val_log env i op n hn; omega
          · have := hval n hn; omega

/-! ### Counting lemmas -/

lemma countStatus_cons (s : Status) (r : OperationResult) (rs : List OperationResult) :
    countStatus s (r :: rs) = (if r.status = s then 1 else 0) + countStatus s rs := by
  by_cases h : r.status = s <;> (simp [countStatus, List.filter_cons, h]; try omega)

lemma countStatus_partition (rs : List OperationResult) :
    countStatus Status.succeeded rs + countStatus Status.failed rs +
      countStatus Status.skipped rs = rs.length := by
  induction rs with
  | nil => rfl
  | cons r rs ih =>
    rw [countStatus_cons, countStatus_cons, countStatus_cons]
    cases h : r.status <;> (simp [h]; omega)

lemma countStatus_eq_zero (s : Status) (rs : List OperationResult) :
    countStatus s rs = 0 ↔ ∀ r ∈ rs, ¬ r.status = s := by
  simp [countStatus, List.length_eq_zero, List.filter_eq_nil_iff]

lemma countStatus_eq_length (s : Status) (rs : List OperationResult)
    (h : ∀ r ∈ rs, r.status = s) : countStatus s rs = rs.length := by
  unfold countStatus
  rw [List.filter_eq_self.mpr]
  intro r hr
  simp [h r hr]

lemma countStatus_ne_zero (s : Status) (rs : List OperationResult) (r : OperationResult)
    (hr : r ∈ rs) (hs : r.status = s) : countStatus s rs ≠ 0 := by
  rw [Ne, countStatus_eq_zero]
  intro h
  exact h r hr hs

/-! ### Field-shape invariant of executed chains -/

lemma execOps_shape (env : Env) :
    ∀ (ops : List Operation) (i : Nat) (cf : Bool) (r : OperationResult),
      r ∈ (execOps env i cf ops).results →
      (r.payload.isSome = true → r.status = Status.succeeded) ∧
      (r.errorMessage.isSome = true → r.status = Status.failed) ∧
      (r.status = Status.skipped ↔ r.executionTimeMs = none) := by
  intro ops
  induction ops with
  | nil => intro i cf r hr; cases cf <;> simp [execOps] at hr
  | cons op rest ih =>
    intro i cf r hr
    cases cf with
    | true =>
      simp [execOps] at hr
      rcases hr with hr | hr
      · rw [hr]; simp [skippedResult]
      · exact ih (i + 1) true r hr
    | false =>
      simp [execOps] at hr
      rcases hr with hr | hr
      · obtain ⟨_, _, h3, h4, h5, h6⟩ := attempt_spec env i op
        rw [hr]
        refine ⟨h5, h6, ⟨fun h => absurd h h3, fun h => ?_⟩⟩
        rw [h4] at h
        cases h
      · exact ih (i + 1) _ r hr

lemma time_total_filterMap :
    ∀ (rs : List OperationResult),
      (∀ r ∈ rs, (r.status = Status.skipped ↔ r.executionTimeMs = none)) →
      ((rs.filter (fun r => ! decide (r.status = Status.skipped))).map
        (fun r => r.executionTimeMs.getD 0)).sum
        = (rs.filterMap (fun r => r.executionTimeMs)).sum := by
  intro rs
  induction rs with
  | nil => intro _; rfl
  | cons r rs ih =>
    intro h
    have hr := h r (List.mem_cons_self r rs)
    have hrest := fun r' hr' => h r' (List.mem_cons_of_mem r hr')
    by_cases hs : r.status = Status.skipped
    · have hn : r.executionTimeMs = none := hr.mp hs
      simp [List.filter_cons, hs, List.filterMap_cons, hn, ih hrest]
    · have hn : r.executionTimeMs ≠ none := fun h0 => hs (hr.mpr h0)
      obtain ⟨t, ht⟩ := Option.ne_none_iff_exists.mp hn
      simp [List.filter_cons, hs, List.filterMap_cons, ← ht, ih hrest]

/-! ### Index and kind alignment -/

lemma execOps_get (env : Env) :
    ∀ (ops : List Operation) (i : Nat) (cf : Bool) (j : Nat), j < ops.length →
      ∃ (r : OperationResult) (op : Operation),
        (execOps env i cf ops).results[j]? = some r ∧ ops[j]? = some op ∧
        r.index = i + j ∧ r.operationKind = op.kind := by
  intro ops
  induction ops with
  | nil => intro i cf j hj; simp at hj
  | cons op rest ih =>
    intro i cf j hj
    cases j with
    | zero =>
      cases cf with
      | true =>
        exact ⟨skippedResult i op, op, by simp [execOps], by simp,
          by simp [skippedResult], by simp [skippedResult]⟩
      | false =>
        obtain ⟨h1, h2, _⟩ := attempt_spec env i op
        exact ⟨(attempt env i op).1, op, by simp [execOps], by simp,
          by simpa using h1, h2⟩
    | succ j' =>
      have hj' : j' < rest.length := by simpa using hj
      cases cf with
      | true =>
        obtain ⟨r, op', hr, hop, hidx, hkind⟩ := ih (i + 1) true j' hj'
        refine ⟨r, op', by simpa [execOps] using hr, by simpa using hop, ?_, hkind⟩
        rw [hidx]; omega
      | false =>
        obtain ⟨r, op', hr, hop, hidx, hkind⟩ :=
          ih (i + 1) (decide ((attempt env i op).1.status = Status.failed)) j' hj'
        refine ⟨r, op', by simpa [execOps] using hr, by simpa using hop, ?_, hkind⟩
        rw [hidx]; omega

/-! ### A failing head operation -/

lemma execChain_head_fail_count (env : Env) (ops : List Operation) (r : OperationResult)
    (hget : (execChain env ops).results[0]? = some r) (hfail : r.status = Status.failed) :
    countStatus Status.failed (execChain env ops).results = 1 := by
  cases ops with
  | nil => simp [execChain, execOps] at hget
  | cons op rest =>
    have hhead : (attempt env 0 op).1 = r := by simpa [execChain, execOps] using hget
    have hflag : decide ((attempt env 0 op).1.status = Status.failed) = true := by
      rw [hhead, hfail]; simp
    obtain ⟨_, _, _, g4, _⟩ := execOps_true_all env rest 1
    have hres : (execChain env (op :: rest)).results
        = (attempt env 0 op).1 ::
          (execOps env 1 (decide ((attempt env 0 op).1.status = Status.failed)) rest).results := by
      simp [execChain, execOps]
    rw [hres, hflag, countStatus_cons, hhead, hfail]
    have htail : countStatus Status.failed (execOps env 1 true rest).results = 0 := by
      rw [countStatus_eq_zero]
      intro r' hr'
      rw [g4 r' hr']
      simp
    rw [htail]
    simp

/-! ### Unsafe queries are stopped at the validator -/

lemma validate_rejects (sql : Str) (h : unsafeSql sql = true) :
    validate sql = ValidationOutcome.rejected unsafeReason := by
  simp [validate, h]

lemma execOps_unsafe_query (env : Env) :
    ∀ (ops : List Operation) (b i : Nat) (sql : Str),
      ops[i]? = some (Operation.query sql) → unsafeSql sql = true →
      (∀ (k : Nat) (r' : OperationResult), k < i →
        (execOps env b false ops).results[k]? = some r' → r'.status = Status.succeeded) →
      ∃ r : OperationResult, (execOps env b false ops).results[i]? = some r ∧
        r.status = Status.failed ∧ r.errorMessage = some unsafeReason ∧
        (∀ p ∈ (execOps env b false ops).gwLog, p.1 ≠ b + i) ∧
        (∀ (j : Nat) (r' : OperationResult), i < j →
          (execOps env b false ops).results[j]? = some r' → r'.status = Status.skipped) := by
  intro ops
  induction ops with
  | nil => intro b i sql hop; simp at hop
  | cons op rest ih =>
    intro b i sql hop hbad halive
    cases i with
    | zero =>
      have hopeq : op = Operation.query sql := by simpa using hop
      subst hopeq
      have hval : validate sql = ValidationOutcome.rejected unsafeReason :=
        validate_rejects sql hbad
      have hatt : attempt env b (Operation.query sql)
          = (failedResult b OpKind.query unsafeReason (env.time b), [], [b]) := by
        simp [attempt, hval]
      obtain ⟨g1, g2, g3, g4, g5⟩ := execOps_true_all env rest (b + 1)
      refine ⟨failedResult b OpKind.query unsafeReason (env.time b), ?_, rfl, rfl, ?_, ?_⟩
      · simp [execOps, hatt]
      · intro p hp
        simp [execOps, hatt, failedResult, g1] at hp
      · intro j r' hj hget'
        cases j with
        | zero => omega
        | succ j' =>
          have : (execOps env (b + 1)
              (decide ((attempt env b (Operation.query sql)).1.status = Status.failed))
              rest).results[j']? = some r' := by
            simpa [execOps] using hget'
          rw [hatt] at this
          simp [failedResult] at this
          exact g5 j' r' this
    | succ i' =>
      have hhead : (execOps env b false (op :: rest)).results[0]?
          = some (attempt env b op).1 := by
        simp [execOps]
      have hsucc : (attempt env b op).1.status = Status.succeeded :=
        halive 0 _ (Nat.succ_pos i') hhead
      have hflag : decide ((attempt env b op).1.status = Status.failed) = false := by
        rw [hsucc]; simp
      have hop' : rest[i']? = some (Operation.query sql) := by simpa using hop
      have halive' : ∀ (k : Nat) (r' : OperationResult), k < i' →
          (execOps env (b + 1) false rest).results[k]? = some r' →
          r'.status = Status.succeeded := by
        intro k r' hk hget
        apply halive (k + 1) r' (by omega)
        have : (execOps env b false (op :: rest)).results[k + 1]?
            = (execOps env (b + 1)
                (decide ((attempt env b op).1.status = Status.failed)) rest).results[k]? := by
          simp [execOps]
        rw [this, hflag]
        exact hget
      obtain ⟨r, hr1, hr2, hr3, hr4, hr5⟩ := ih (b + 1) i' sql hop' hbad halive'
      refine ⟨r, ?_, hr2, hr3, ?_, ?_⟩
      · have : (execOps env b false (op :: rest)).results[i' + 1]?
            = (execOps env (b + 1)
                (decide ((attempt env b op).1.status = Status.failed)) rest).results[i']? := by
          simp [execOps]
        rw [this, hflag]
        exact hr1
      · intro p hp
        simp [execOps, hflag] at hp
        rcases hp with hp | hp
        · have := attempt_gw_log env b op p hp; omega
        · have := hr4 p hp; omega
      · intro j r' hj hget'
        cases j with
        | zero => omega
        | succ j' =>
          have : (execOps env (b + 1)
              (decide ((attempt env b op).1.status = Status.failed)) rest).results[j']?
              = some r' := by
            simpa [execOps] using hget'
          rw [hflag] at this
          exact hr5 j' r' (by omega) this

/-! ### Field values of the aggregated chain result -/

lemma runDeepQuery_total (env : Env) (ops : List Operation) :
    (runDeepQuery env ops).total_operations = (execChain env ops).results.length := rfl

lemma runDeepQuery_executed (env : Env) (ops : List Operation) :
    (runDeepQuery env ops).executed_operations =
      countStatus Status.succeeded (execChain env ops).results +
      countStatus Status.failed (execChain env ops).results := rfl

lemma runDeepQuery_succ (env : Env) (ops : List Operation) :
    (runDeepQuery env ops).successful_operations =
      countStatus Status.succeeded (execChain env ops).results := rfl

lemma runDeepQuery_failed (env : Env) (ops : List Operation) :
    (runDeepQuery env ops).failed_operations =
      countStatus Status.failed (execChain env ops).results := rfl

lemma runDeepQuery_all (env : Env) (ops : List Operation) :
    (runDeepQuery env ops).all_successful =
      (decide (countStatus Status.failed (execChain env ops).results = 0) &&
       decide (countStatus Status.succeeded (execChain env ops).results +
         countStatus Status.failed (execChain env ops).results =
         (execChain env ops).results.length)) := rfl

lemma runDeepQuery_time (env : Env) (ops : List Operation) :
    (runDeepQuery env ops).total_execution_time_ms =
      (((execChain env ops).results.filter
          (fun r => ! decide (r.status = Status.skipped))).map
        (fun r => r.executionTimeMs.getD 0)).sum := rfl

/-- A gateway that fails every call, with a constant clock: a concrete run. -/
def envFail : Env :=
  ⟨fun _ _ => Except.error "connection refused".data, fun _ => 7⟩

/-- A gateway that answers every call with a one-row result set. -/
def envOk : Env :=
  ⟨fun _ _ => Except.ok (Payload.rowSet [] 1), fun i => i + 10⟩

/-! ### The claims about the engine -/

/-- C1: Skip-on-prior-failure policy: once the operation at index `i` fails,
every operation at a greater index is emitted as `Skipped` with no timer start,
gateway call or validator call beyond index `i`; and if the operation at index
0 fails, every later result is `Skipped` and `failed_operations` equals 1. -/
theorem C1_skip_on_prior_failure (env : Env) (ops : List Operation) (i : Nat)
    (r : OperationResult)
    (hget : (execChain env ops).results[i]? = some r)
    (hfail : r.status = Status.failed) :
    (∀ (j : Nat) (r' : OperationResult), i < j →
      (execChain env ops).results[j]? = some r' → r'.status = Status.skipped) ∧
    (∀ n ∈ (execChain env ops).timerLog, n ≤ i) ∧
    (∀ p ∈ (execChain env ops).gwLog, p.1 ≤ i) ∧
    (∀ n ∈ (execChain env ops).valLog, n ≤ i) ∧
    (i = 0 → (runDeepQuery env ops).failed_operations = 1) := by
  obtain ⟨h1, h2, h3, h4⟩ := execOps_fail_tail env ops 0 false i r hget hfail
  refine ⟨h1, ?_, ?_, ?_, ?_⟩
  · intro n hn; have := h2 n hn; omega
  · intro p hp; have := h3 p hp; omega
  · intro n hn; have := h4 n hn; omega
  · intro hi
    subst hi
    rw [runDeepQuery_failed]
    exact execChain_head_fail_count env ops r hget hfail

/-- Witness for C1: a two-operation chain whose first gateway call fails has
exactly one failed operation. -/
theorem C1_witness :
    (runDeepQuery envFail [Operation.listTables, Operation.listTables]).failed_operations = 1 :=
  (C1_skip_on_prior_failure envFail [Operation.listTables, Operation.listTables] 0
    (failedResult 0 OpKind.listTables "connection refused".data 7) rfl rfl).2.2.2.2 rfl

/-- C2: the results sequence has the length of the input list, appears in
input order, and `results[i].index = i` with the operation kind mirrored,
wherever failures occur. -/
theorem C2_results_aligned (env : Env) (ops : List Operation) :
    (runDeepQuery env ops).results.length = ops.length ∧
    ∀ (i : Nat), i < ops.length →
      ∃ (r : OperationResult) (op : Operation),
        (runDeepQuery env ops).results[i]? = some r ∧ ops[i]? = some op ∧
        r.index = i ∧ r.operationKind = op.kind := by
  constructor
  · simpa [runDeepQuery_results, execChain] using execOps_length env ops 0 false
  · intro i hi
    obtain ⟨r, op, h1, h2, h3, h4⟩ := execOps_get env ops 0 false i hi
    exact ⟨r, op, by simpa [runDeepQuery_results, execChain] using h1, h2,
      by simpa using h3, h4⟩

/-- Witness for C2 on a concrete one-operation chain. -/
theorem C2_witness :
    ∃ (r : OperationResult) (op : Operation),
      (runDeepQuery envOk [Operation.listTables]).results[0]? = some r ∧
      ([Operation.listTables] : List Operation)[0]? = some op ∧
      r.index = 0 ∧ r.operationKind = op.kind :=
  (C2_results_aligned envOk [Operation.listTables]).2 0 (by decide)

/-- C3: `all_successful` holds iff nothing failed and everything was executed;
if every result succeeded there are no skips and the flag is true; if any
result failed the flag is false. -/
theorem C3_all_successful_iff (env : Env) (ops : List Operation) :
    ((runDeepQuery env ops).all_successful = true ↔
      (runDeepQuery env ops).failed_operations = 0 ∧
      (runDeepQuery env ops).executed_operations = (runDeepQuery env ops).total_operations) ∧
    ((∀ r ∈ (runDeepQuery env ops).results, r.status = Status.succeeded) →
      countStatus Status.skipped (runDeepQuery env ops).results = 0 ∧
      (runDeepQuery env ops).all_successful = true) ∧
    ((∃ r ∈ (runDeepQuery env ops).results, r.status = Status.failed) →
      (runDeepQuery env ops).all_successful = false) := by
  refine ⟨?_, ?_, ?_⟩
  · rw [runDeepQuery_all, runDeepQuery_failed, runDeepQuery_executed, runDeepQuery_total]
    simp
  · intro hall
    have hsucc : countStatus Status.succeeded (execChain env ops).results
        = (execChain env ops).results.length :=
      countStatus_eq_length _ _ hall
    have hfail : countStatus Status.failed (execChain env ops).results = 0 := by
      rw [countStatus_eq_zero]
      intro r hr
      rw [hall r hr]
      simp
    have hskip : countStatus Status.skipped (execChain env ops).results = 0 := by
      rw [countStatus_eq_zero]
      intro r hr
      rw [hall r hr]
      simp
    refine ⟨hskip, ?_⟩
    rw [runDeepQuery_all, hsucc, hfail]
    simp
  · rintro ⟨r, hr, hs⟩
    have hne := countStatus_ne_zero Status.failed (execChain env ops).results r hr hs
    rw [runDeepQuery_all]
    simp [hne]

/-- Witness for C3: on an all-successful run the flag is true with no skips. -/
theorem C3_witness :
    countStatus Status.skipped
      (runDeepQuery envOk [Operation.listTables, Operation.listTables]).results = 0 ∧
    (runDeepQuery envOk [Operation.listTables, Operation.listTables]).all_successful = true :=
  (C3_all_successful_iff envOk [Operation.listTables, Operation.listTables]).2.1 (by decide)

/-- C4: `executed + skipped = total` and `executed = successful + failed`. -/
theorem C4_counters (env : Env) (ops : List Operation) :
    (runDeepQuery env ops).executed_operations +
      countStatus Status.skipped (runDeepQuery env ops).results =
      (runDeepQuery env ops).total_operations ∧
    (runDeepQuery env ops).executed_operations =
      (runDeepQuery env ops).successful_operations +
      (runDeepQuery env ops).failed_operations := by
  refine ⟨?_, rfl⟩
  have := countStatus_partition (execChain env ops).results
  rw [runDeepQuery_executed, runDeepQuery_total, runDeepQuery_results]
  omega

/-- C5: a query whose SQL contains a banned standalone token or a statement
separator with trailing content is rejected by the validator with
`UnsafeStatement`; when the chain is still alive at that index, its result is
`Failed` with that reason, the gateway receives no call at that index, and all
later results are `Skipped`. -/
theorem C5_unsafe_query (env : Env) (ops : List Operation) (i : Nat) (sql : Str)
    (hop : ops[i]? = some (Operation.query sql)) (hbad : unsafeSql sql = true)
    (halive : ∀ (k : Nat) (r' : OperationResult), k < i →
      (execChain env ops).results[k]? = some r' → r'.status = Status.succeeded) :
    validate sql = ValidationOutcome.rejected unsafeReason ∧
    ∃ r : OperationResult, (execChain env ops).results[i]? = some r ∧
      r.status = Status.failed ∧ r.errorMessage = some unsafeReason ∧
      (∀ p ∈ (execChain env ops).gwLog, p.1 ≠ i) ∧
      (∀ (j : Nat) (r' : OperationResult), i < j →
        (execChain env ops).results[j]? = some r' → r'.status = Status.skipped) := by
  refine ⟨validate_rejects sql hbad, ?_⟩
  obtain ⟨r, h1, h2, h3, h4, h5⟩ := execOps_unsafe_query env ops 0 i sql hop hbad halive
  exact ⟨r, h1, h2, h3, fun p hp => by have := h4 p hp; simpa using this, h5⟩

/-- Witness for C5: `DROP TABLE users;` is rejected and the gateway is never
called for it. -/
theorem C5_witness :
    validate "DROP TABLE users;".data = ValidationOutcome.rejected unsafeReason ∧
    ∃ r : OperationResult,
      (execChain envOk [Operation.query "DROP TABLE users;".data]).results[0]? = some r ∧
      r.status = Status.failed ∧ r.errorMessage = some unsafeReason ∧
      (∀ p ∈ (execChain envOk [Operation.query "DROP TABLE users;".data]).gwLog, p.1 ≠ 0) ∧
      (∀ (j : Nat) (r' : OperationResult), 0 < j →
        (execChain envOk [Operation.query "DROP TABLE users;".data]).results[j]? = some r' →
        r'.status = Status.skipped) :=
  C5_unsafe_query envOk [Operation.query "DROP TABLE users;".data] 0
    "DROP TABLE users;".data rfl (by decide)
    (fun k _ hk _ => absurd hk (Nat.not_lt_zero k))

/-- C6: the total execution time is the sum of `executionTimeMs` over exactly
the non-skipped results; skipped entries carry no execution time. -/
theorem C6_total_time (env : Env) (ops : List Operation) :
    (runDeepQuery env ops).total_execution_time_ms =
      ((runDeepQuery env ops).results.filterMap (fun r => r.executionTimeMs)).sum ∧
    ∀ r ∈ (runDeepQuery env ops).results,
      (r.status = Status.skipped → r.executionTimeMs = none) ∧
      (r.status ≠ Status.skipped → r.executionTimeMs.isSome = true) := by
  have hshape : ∀ r ∈ (execChain env ops).results,
      (r.status = Status.skipped ↔ r.executionTimeMs = none) :=
    fun r hr => (execOps_shape env ops 0 false r hr).2.2
  constructor
  · rw [runDeepQuery_time]
    exact time_total_filterMap _ hshape
  · intro r hr
    have h := hshape r hr
    refine ⟨h.mp, fun hns => ?_⟩
    cases hx : r.executionTimeMs with
    | none => exact absurd (h.mpr hx) hns
    | some t => rfl

/-- Witness for C6 on a chain with a failure followed by a skip. -/
theorem C6_witness :
    (runDeepQuery envFail [Operation.listTables, Operation.listTables]).total_execution_time_ms =
      ((runDeepQuery envFail [Operation.listTables, Operation.listTables]).results.filterMap
        (fun r => r.executionTimeMs)).sum :=
  (C6_total_time envFail [Operation.listTables, Operation.listTables]).1

/-- C7: every result is in exactly one of the three statuses, a payload occurs
only on success, an error message only on failure, and a skipped result has no
execution time. -/
theorem C7_result_shape (env : Env) (ops : List Operation) (r : OperationResult)
    (hr : r ∈ (runDeepQuery env ops).results) :
    (r.status = Status.succeeded ∨ r.status = Status.failed ∨ r.status = Status.skipped) ∧
    (r.payload.isSome = true → r.status = Status.succeeded) ∧
    (r.errorMessage.isSome = true → r.status = Status.failed) ∧
    (r.status = Status.skipped → r.executionTimeMs = none) := by
  obtain ⟨h1, h2, h3⟩ := execOps_shape env ops 0 false r hr
  refine ⟨?_, h1, h2, h3.mp⟩
  cases hs : r.status
  · exact Or.inl rfl
  · exact Or.inr (Or.inl rfl)
  · exact Or.inr (Or.inr rfl)

/-- Witness for C7 at the skipped second entry of a failing chain. -/
theorem C7_witness :
    ((skippedResult 1 Operation.listTables).status = Status.succeeded ∨
      (skippedResult 1 Operation.listTables).status = Status.failed ∨
      (skippedResult 1 Operation.listTables).status = Status.skipped) ∧
    ((skippedResult 1 Operation.listTables).payload.isSome = true →
      (skippedResult 1 Operation.listTables).status = Status.succeeded) ∧
    ((skippedResult 1 Operation.listTables).errorMessage.isSome = true →
      (skippedResult 1 Operation.listTables).status = Status.failed) ∧
    ((skippedResult 1 Operation.listTables).status = Status.skipped →
      (skippedResult 1 Operation.listTables).executionTimeMs = none) :=
  C7_result_shape envFail [Operation.listTables, Operation.listTables]
    (skippedResult 1 Operation.listTables) (by decide)

/-- C8: the empty operation list yields a chain result with empty results, all
counters zero and `all_successful = true`. -/
theorem C8_empty_chain (env : Env) :
    runDeepQuery env [] =
      { results := [], total_operations := 0, executed_operations := 0,
        successful_operations := 0, failed_operations := 0,
        total_execution_time_ms := 0, all_successful := true } := rfl

/-! ### The request builders of the two UI forms -/

lemma trimChars_eq (s : Str) :
    trimChars s = List.rdropWhile wsChar (s.dropWhile wsChar) := rfl

lemma dropWhile_trimChars (s : Str) : (trimChars s).dropWhile wsChar = trimChars s := by
  rw [List.dropWhile_eq_self_iff]
  intro hl
  have hpre : trimChars s <+: s.dropWhile wsChar := by
    rw [trimChars_eq]
    exact List.rdropWhile_prefix wsChar (s.dropWhile wsChar)
  have h0 : 0 < (s.dropWhile wsChar).length := lt_of_lt_of_le hl hpre.length_le
  have hget : (trimChars s).get ⟨0, hl⟩ = (s.dropWhile wsChar).get ⟨0, h0⟩ := by
    simpa [List.get_eq_getElem] using hpre.getElem hl
  rw [hget]
  exact (List.dropWhile_eq_self_iff.mp (List.dropWhile_idempotent wsChar s)) h0

lemma trimChars_idem (s : Str) : trimChars (trimChars s) = trimChars s := by
  rw [trimChars_eq (trimChars s), dropWhile_trimChars, trimChars_eq s]
  exact List.rdropWhile_idempotent wsChar (s.dropWhile wsChar)

lemma parseTableNames_mem (s : Str) (t : Str) (h : t ∈ parseTableNames s) :
    t ≠ [] ∧ trimChars t = t := by
  unfold parseTableNames at h
  rw [List.mem_filter] at h
  obtain ⟨hmem, hne⟩ := h
  rw [List.mem_map] at hmem
  obtain ⟨p, _, hp⟩ := hmem
  constructor
  · intro h0
    rw [h0] at hne
    simp at hne
  · rw [← hp]
    exact trimChars_idem p

lemma handleDeepQuery_send_iff (f : FormState) (ops : List Operation) :
    handleDeepQuery f = ClientOutcome.sendRequest ops ↔
    handleSubmit f = ClientOutcome.sendRequest ops := by
  unfold handleDeepQuery handleSubmit
  split_ifs <;> simp

/-- C9: when the table-info option is enabled and the parsed table-name list
is empty, both UI submission handlers report a client error and send no
request at all. -/
theorem C9_empty_tables_rejected (f : FormState)
    (hinfo : f.includeTableInfo = true)
    (hempty : parseTableNames f.tableNames = []) :
    (∃ msg, handleSubmit f = ClientOutcome.reportError msg) ∧
    (∃ msg, handleDeepQuery f = ClientOutcome.reportError msg) := by
  unfold handleSubmit handleDeepQuery
  by_cases hsql : (trimChars f.sqlQuery).isEmpty
  · simp [hsql]
  · simp [hsql, hinfo, hempty]

/-- Witness for C9: table info enabled with a table field holding only commas
and blanks. -/
theorem C9_witness :
    (∃ msg, handleSubmit ⟨"SELECT 1".data, "  ,  ".data, true, true⟩
      = ClientOutcome.reportError msg) ∧
    (∃ msg, handleDeepQuery ⟨"SELECT 1".data, "  ,  ".data, true, true⟩
      = ClientOutcome.reportError msg) :=
  C9_empty_tables_rejected ⟨"SELECT 1".data, "  ,  ".data, true, true⟩ rfl (by decide)

/-- C10: every request either form sends has a non-empty operation list ending
in the query operation whose SQL is the trimmed, non-empty input; any
`list_tables` precedes any `table_info`; and every table name is a trimmed,
non-empty string. -/
theorem C10_request_shape (f : FormState) (ops : List Operation)
    (h : handleSubmit f = ClientOutcome.sendRequest ops ∨
      handleDeepQuery f = ClientOutcome.sendRequest ops) :
    ops ≠ [] ∧
    ops.getLast? = some (Operation.query (trimChars f.sqlQuery)) ∧
    trimChars f.sqlQuery ≠ [] ∧
    (∀ (i j : Nat) (ts : List Str), ops[i]? = some Operation.listTables →
      ops[j]? = some (Operation.tableInfo ts) → i < j) ∧
    (∀ ts : List Str, Operation.tableInfo ts ∈ ops →
      ∀ t ∈ ts, t ≠ [] ∧ trimChars t = t) := by
  have hsend : handleSubmit f = ClientOutcome.sendRequest ops := by
    rcases h with h | h
    · exact h
    · exact (handleDeepQuery_send_iff f ops).mp h
  unfold handleSubmit at hsend
  by_cases hsql : (trimChars f.sqlQuery).isEmpty
  · rw [if_pos hsql] at hsend
    cases hsend
  rw [if_neg hsql] at hsend
  have hne : trimChars f.sqlQuery ≠ [] := by
    intro h0
    rw [h0] at hsql
    simp at hsql
  by_cases hinfo : f.includeTableInfo
  · rw [if_pos hinfo] at hsend
    by_cases hempty : (parseTableNames f.tableNames).isEmpty
    · rw [if_pos hempty] at hsend
      cases hsend
    rw [if_neg hempty] at hsend
    by_cases hlt : f.includeListTables
    · rw [if_pos hlt] at hsend
      injection hsend with h1
      subst h1
      refine ⟨by simp, rfl, hne, ?_, ?_⟩
      · intro i j ts hi hj
        rcases i with _ | _ | _ | i <;> rcases j with _ | _ | _ | j <;>
          simp_all
      · intro ts hts
        simp at hts
        subst hts
        intro t ht
        exact parseTableNames_mem f.tableNames t ht
    · rw [if_neg hlt] at hsend
      injection hsend with h1
      subst h1
      refine ⟨by simp, rfl, hne, ?_, ?_⟩
      · intro i j ts hi hj
        rcases i with _ | _ | _ | i <;> rcases j with _ | _ | _ | j <;>
          simp_all
      · intro ts hts
        simp at hts
        subst hts
        intro t ht
        exact parseTableNames_mem f.tableNames t ht
  · rw [if_neg hinfo] at hsend
    by_cases hlt : f.includeListTables
    · rw [if_pos hlt] at hsend
      injection hsend with h1
      subst h1
      refine ⟨by simp, rfl, hne, ?_, ?_⟩
      · intro i j ts hi hj
        rcases j with _ | _ | j <;> simp_all
      · intro ts hts
        simp at hts
    · rw [if_neg hlt] at hsend
      injection hsend with h1
      subst h1
      refine ⟨by simp, rfl, hne, ?_, ?_⟩
      · intro i j ts hi hj
        rcases j with _ | j <;> simp_all
      · intro ts hts
        simp at hts

/-- Witness for C10 at a concrete filled form. -/
theorem C10_witness :
    ([Operation.listTables, Operation.tableInfo (parseTableNames " users , txns ".data),
        Operation.query (trimChars " SELECT 1 ".data)] : List Operation) ≠ [] ∧
    ([Operation.listTables, Operation.tableInfo (parseTableNames " users , txns ".data),
        Operation.query (trimChars " SELECT 1 ".data)] : List Operation).getLast?
      = some (Operation.query (trimChars " SELECT 1 ".data)) ∧
    trimChars " SELECT 1 ".data ≠ [] ∧
    (∀ (i j : Nat) (ts : List Str),
      ([Operation.listTables, Operation.tableInfo (parseTableNames " users , txns ".data),
          Operation.query (trimChars " SELECT 1 ".data)] : List Operation)[i]?
        = some Operation.listTables →
      ([Operation.listTables, Operation.tableInfo (parseTableNames " users , txns ".data),
          Operation.query (trimChars " SELECT 1 ".data)] : List Operation)[j]?
        = some (Operation.tableInfo ts) → i < j) ∧
    (∀ ts : List Str,
      Operation.tableInfo ts ∈
        ([Operation.listTables, Operation.tableInfo (parseTableNames " users , txns ".data),
            Operation.query (trimChars " SELECT 1 ".data)] : List Operation) →
      ∀ t ∈ ts, t ≠ [] ∧ trimChars t = t) :=
  C10_request_shape ⟨" SELECT 1 ".data, " users , txns ".data, true, true⟩ _ (Or.inl rfl)

end DeepQuerySpec
